import Mathlib

/-! Session and token lifecycle of badger.

A shallow embedding of the Go packages `auth` (`models.go`, `store.go`,
`tokens.go`, `auth.go`) of kellensoft/badger, and theorems about it.

Conventions of the embedding.

* The SQLite database behind `Store` is the value `Store`: three tables kept as
  lists of rows in insertion order, the `sqlite_sequence` counters of the
  `AUTOINCREMENT` keys, and whether foreign keys are enforced on the connection.
* Every ambient input a Go function reads is an explicit argument: the clock
  (`time.Now()`), the environment (`os.Getenv`), the entropy source
  (`crypto/rand`), and for every SQL statement an optional driver failure
  (`fault`), which makes the statement return that error with no effect.
* A Go `error` result is `Option GoError` (`none` is `nil`); a Go `(T, error)`
  result whose value is meaningless on error is `Except GoError T`.
* Go `int` and `int64` values are `Int`; arithmetic that can wrap (the
  `time.Duration` products) is reduced with `wrapInt64`.
-/

namespace Badger

/-! ## Go values -/

/-- Go `error` values that occur in the package. -/
inductive GoError where
  /-- The value `errors.New(msg)`. -/
  | errorsNew (msg : String)
  /-- The value `sql.ErrNoRows`. -/
  | sqlErrNoRows
  /-- A constraint failure reported by SQLite for an `INSERT`. -/
  | sqliteConstraint (msg : String)
  /-- Every other failure of a collaborator (driver, entropy source, bcrypt). -/
  | other (msg : String)
  deriving DecidableEq, Repr

/-- The method `Error()` of an error value. -/
def GoError.Error : GoError → String
  | .errorsNew msg => msg
  | .sqlErrNoRows => "sql: no rows in result set"
  | .sqliteConstraint msg => msg
  | .other msg => msg

/-- Two's complement reduction of an integer to the range of `int64`. -/
def wrapInt64 (x : Int) : Int := (x + 2 ^ 63) % 2 ^ 64 - 2 ^ 63

/-- Whether an integer is a value of `int64`. -/
def inInt64 (x : Int) : Prop := -(2 ^ 63) ≤ x ∧ x < 2 ^ 63

instance (x : Int) : Decidable (inInt64 x) := by unfold inInt64; exact inferInstance

/-! ## models.go -/

/-- The struct `User`. -/
structure User where
  ID : Int
  Username : String
  Email : String
  PasswordHash : String
  deriving DecidableEq, Repr

/-- The structs `AccessToken` and `RefreshToken`, which have the same fields. -/
structure TokenRow where
  ID : Int
  UserID : Int
  Token : String
  ExpiresAt : Int
  CreatedAt : Int
  deriving DecidableEq, Repr

abbrev AccessToken := TokenRow

abbrev RefreshToken := TokenRow

/-! ## store.go -/

/-- The database behind a `*Store`: the tables of `setupTables`. -/
structure Store where
  users : List User
  access_tokens : List AccessToken
  refresh_tokens : List RefreshToken
  /-- The `sqlite_sequence` entry of `users`. -/
  seq_users : Int
  /-- The `sqlite_sequence` entry of `access_tokens`. -/
  seq_access_tokens : Int
  /-- The `sqlite_sequence` entry of `refresh_tokens`. -/
  seq_refresh_tokens : Int
  /-- Whether the connection enforces `FOREIGN KEY` clauses (a property of the DSN). -/
  foreign_keys : Bool

/-- The database right after `NewStore` on a fresh DSN: `setupTables` has created
three empty tables. -/
def NewStore (foreign_keys : Bool) : Store :=
  { users := [], access_tokens := [], refresh_tokens := [],
    seq_users := 0, seq_access_tokens := 0, seq_refresh_tokens := 0,
    foreign_keys := foreign_keys }

/-- The key SQLite gives a new row of an `INTEGER PRIMARY KEY AUTOINCREMENT`
table: one more than the largest key the table ever held, and none once that key
is the largest `int64` (the `INSERT` then fails, the database being full). -/
def nextRowid (seq : Int) (ids : List Int) : Option Int :=
  let largest := max seq (ids.foldl max 0)
  if largest ≥ 2 ^ 63 - 1 then none else some (largest + 1)

/-- The error of an `INSERT` that finds no key left for its row. -/
def sqliteFull : GoError := .other "database or disk is full"

/-- The method `CreateUser`: the statement
`INSERT INTO users (username, email, password_hash) VALUES (?, ?, ?)` under the two
`UNIQUE` constraints of the table, that on `email` being reported first. -/
def Store.CreateUser (s : Store) (fault : Option GoError)
    (username email passwordHash : String) : Store × Option GoError :=
  match fault with
  | some e => (s, some e)
  | none =>
    match nextRowid s.seq_users (s.users.map (fun u => u.ID)) with
    | none => (s, some sqliteFull)
    | some id =>
      if s.users.any (fun u => u.Email == email) then
        (s, some (.sqliteConstraint "UNIQUE constraint failed: users.email"))
      else if s.users.any (fun u => u.Username == username) then
        (s, some (.sqliteConstraint "UNIQUE constraint failed: users.username"))
      else
        ({ s with users := s.users ++ [⟨id, username, email, passwordHash⟩], seq_users := id },
          none)

/-- The method `FindUserByUsername`: the query
`SELECT id, username, email, password_hash FROM users WHERE username = ?` scanned
into a `User`; no row is `(nil, nil)`. -/
def Store.FindUserByUsername (s : Store) (fault : Option GoError) (username : String) :
    Option User × Option GoError :=
  let scan : Except GoError User :=
    match fault with
    | some e => .error e
    | none =>
      match s.users.find? (fun u => u.Username == username) with
      | some u => .ok u
      | none => .error .sqlErrNoRows
  match scan with
  | .error e => if e = .sqlErrNoRows then (none, none) else (none, some e)
  | .ok u => (some u, none)

/-- The statement
`INSERT INTO <table> (user_id, token, expires_at, created_at) VALUES (?, ?, ?, ?)`
on one of the two token tables: the new table and counter, or the error. -/
def insertToken (foreign_keys : Bool) (users : List User) (table : List TokenRow) (seq : Int)
    (tableName : String) (fault : Option GoError) (userID : Int) (token : String)
    (expiresAt createdAt : Int) : Except GoError (List TokenRow × Int) :=
  match fault with
  | some e => .error e
  | none =>
    match nextRowid seq (table.map (fun r => r.ID)) with
    | none => .error sqliteFull
    | some id =>
      if table.any (fun r => r.Token == token) then
        .error (.sqliteConstraint ("UNIQUE constraint failed: " ++ tableName ++ ".token"))
      else if foreign_keys && !users.any (fun u => u.ID == userID) then
        .error (.sqliteConstraint "FOREIGN KEY constraint failed")
      else
        .ok (table ++ [⟨id, userID, token, expiresAt, createdAt⟩], id)

/-- The method `CreateAccessToken`; `now` is the reading of `time.Now().Unix()`. -/
def Store.CreateAccessToken (s : Store) (fault : Option GoError) (now : Int)
    (userID : Int) (token : String) (expiresAt : Int) : Store × Option GoError :=
  match insertToken s.foreign_keys s.users s.access_tokens s.seq_access_tokens
      "access_tokens" fault userID token expiresAt now with
  | .error e => (s, some e)
  | .ok (table, seq) => ({ s with access_tokens := table, seq_access_tokens := seq }, none)

/-- The method `CreateRefreshToken`; `now` is the reading of `time.Now().Unix()`. -/
def Store.CreateRefreshToken (s : Store) (fault : Option GoError) (now : Int)
    (userID : Int) (token : String) (expiresAt : Int) : Store × Option GoError :=
  match insertToken s.foreign_keys s.users s.refresh_tokens s.seq_refresh_tokens
      "refresh_tokens" fault userID token expiresAt now with
  | .error e => (s, some e)
  | .ok (table, seq) => ({ s with refresh_tokens := table, seq_refresh_tokens := seq }, none)

/-- The query `SELECT user_id, expires_at FROM <table> WHERE token = ?` scanned into
`userID, expiresAt`, followed by the expiry test `time.Now().Unix() > expiresAt`. -/
def findUserIDByToken (table : List TokenRow) (expiredMsg : String) (fault : Option GoError)
    (token : String) (now : Int) : Except GoError Int :=
  match fault with
  | some e => .error e
  | none =>
    match table.find? (fun r => r.Token == token) with
    | none => .error .sqlErrNoRows
    | some row =>
      if now > row.ExpiresAt then .error (.errorsNew expiredMsg) else .ok row.UserID

/-- The method `FindUserIDByAccessToken`; `now` is the reading of `time.Now().Unix()`. -/
def Store.FindUserIDByAccessToken (s : Store) (fault : Option GoError) (token : String)
    (now : Int) : Except GoError Int :=
  findUserIDByToken s.access_tokens "access token expired" fault token now

/-- The method `FindUserIDByRefreshToken`; `now` is the reading of `time.Now().Unix()`. -/
def Store.FindUserIDByRefreshToken (s : Store) (fault : Option GoError) (token : String)
    (now : Int) : Except GoError Int :=
  findUserIDByToken s.refresh_tokens "refresh token expired" fault token now

/-- The statement `DELETE FROM <table> WHERE user_id = ?` on one of the two token
tables. -/
def deleteTokensOfUser (table : List TokenRow) (fault : Option GoError) (userID : Int) :
    List TokenRow × Option GoError :=
  match fault with
  | some e => (table, some e)
  | none => (table.filter (fun r => !(r.UserID == userID)), none)

/-- The method `DeleteAllTokensForUser`: both statements run, the first error wins. -/
def Store.DeleteAllTokensForUser (s : Store) (fault1 fault2 : Option GoError) (userID : Int) :
    Store × Option GoError :=
  let (access, err1) := deleteTokensOfUser s.access_tokens fault1 userID
  let (refresh, err2) := deleteTokensOfUser s.refresh_tokens fault2 userID
  let s' := { s with access_tokens := access, refresh_tokens := refresh }
  match err1 with
  | some e => (s', some e)
  | none => (s', err2)

/-! ## tokens.go -/

/-- One digit of `hex.EncodeToString` (the table `0123456789abcdef`). -/
def hexDigit (n : Nat) : Char :=
  if n < 10 then Char.ofNat (48 + n) else Char.ofNat (87 + n)

/-- The function `hex.EncodeToString` on a slice of bytes. -/
def hexEncodeToString (b : List Nat) : String :=
  String.mk (b.flatMap (fun x => [hexDigit (x / 16), hexDigit (x % 16)]))

/-- The function `generateRandomToken`. `rand` is the outcome of `rand.Read(b)`:
an error, or the bytes it stores in `b`, byte `i` being `f i % 256`. -/
def generateRandomToken (nBytes : Nat) (rand : Except GoError (Nat → Nat)) :
    Except GoError String :=
  match rand with
  | .error err => .error err
  | .ok f => .ok (hexEncodeToString ((List.range nBytes).map (fun i => f i % 256)))

/-- The function `strconv.Atoi` on a 64-bit platform: an optional sign, then one
or more decimal digits, the value within `int64`; `none` when it returns an error. -/
def Atoi (s : String) : Option Int :=
  let cs := s.toList
  let neg := cs.head? == some '-'
  let ds := if cs.head? == some '-' || cs.head? == some '+' then cs.tail else cs
  if ds.isEmpty || !ds.all Char.isDigit then none
  else
    let n : Int := ds.foldl (fun a c => 10 * a + ((c.toNat - 48 : Nat) : Int)) 0
    let v := if neg then -n else n
    if inInt64 v then some v else none

/-- A `time.Time`: seconds since the Unix epoch and the nanoseconds within the
second. -/
structure Time where
  sec : Int
  nsec : Fin 1000000000

/-- The constants `time.Second`, `time.Minute` and `time.Hour`, in nanoseconds. -/
def Second : Int := 1000000000

def Minute : Int := 60 * Second

def Hour : Int := 60 * Minute

/-- A number of nanoseconds already within a second, as the field `nsec`. -/
def toNsec (n : Int) : Fin 1000000000 := ⟨n.toNat % 1000000000, Nat.mod_lt _ (by decide)⟩

/-- The method `Time.Add` for a `time.Duration` of `d` nanoseconds: seconds and
nanoseconds are added apart, with a carry. The seconds of a clock reading are
far from the ends of `int64`, where Go saturates. -/
def Time.Add (t : Time) (d : Int) : Time :=
  let dsec := Int.tdiv d 1000000000
  let nsec : Int := (t.nsec.val : Int) + Int.tmod d 1000000000
  if nsec ≥ 1000000000 then ⟨t.sec + (dsec + 1), toNsec (nsec - 1000000000)⟩
  else if nsec < 0 then ⟨t.sec + (dsec - 1), toNsec (nsec + 1000000000)⟩
  else ⟨t.sec + dsec, toNsec nsec⟩

/-- The method `Time.Unix`. -/
def Time.Unix (t : Time) : Int := t.sec

/-- The function `CreateAccessToken`. `rand` is the entropy read, `envMinutes` the
value of `os.Getenv("ACCESS_TOKEN_EXPIRY_MINUTES")`, `now` the reading of `time.Now()`. -/
def CreateAccessToken (rand : Except GoError (Nat → Nat)) (envMinutes : String) (now : Time) :
    Except GoError (String × Int) :=
  match generateRandomToken 32 rand with
  | .error err => .error err
  | .ok token =>
    let minutes : Int :=
      if envMinutes ≠ "" then
        match Atoi envMinutes with
        | some parsed => parsed
        | none => 30
      else 30
    let expiresAt := (now.Add (wrapInt64 (minutes * Minute))).Unix
    .ok (token, expiresAt)

/-- The function `CreateRefreshToken`. `rand` is the entropy read, `envDays` the
value of `os.Getenv("REFRESH_TOKEN_EXPIRY_DAYS")`, `now` the reading of `time.Now()`. -/
def CreateRefreshToken (rand : Except GoError (Nat → Nat)) (envDays : String) (now : Time) :
    Except GoError (String × Int) :=
  match generateRandomToken 32 rand with
  | .error err => .error err
  | .ok token =>
    let days : Int :=
      if envDays ≠ "" then
        match Atoi envDays with
        | some parsed => parsed
        | none => 30
      else 30
    let expiresAt := (now.Add (wrapInt64 (wrapInt64 (days * 24) * Hour))).Unix
    .ok (token, expiresAt)

/-! ## auth.go -/

/-- The two functions of `golang.org/x/crypto/bcrypt` the package calls.
`GenerateFromPassword password salt` is the hash computed at the default cost with
the salt drawn from the entropy source; `CompareHashAndPassword hash password` is
`none` (`nil`) exactly when the password matches the hash. -/
structure Bcrypt where
  GenerateFromPassword : String → Nat → Except GoError String
  CompareHashAndPassword : String → String → Option GoError

/-- What one call of `CreateAccessToken()` or `CreateRefreshToken()` reads. -/
structure TokenEnv where
  rand : Except GoError (Nat → Nat)
  envTTL : String
  now : Time

/-- What one `INSERT` of a token reads: the driver failure, if any, and the clock. -/
structure ExecEnv where
  fault : Option GoError
  now : Int

/-- What one call of `Auth.Signup` reads. -/
structure SignupEnv where
  salt : Nat
  createUser : Option GoError

/-- What one call of `Auth.Login` reads. -/
structure LoginEnv where
  findUser : Option GoError
  access : TokenEnv
  refresh : TokenEnv
  insertAccess : ExecEnv
  insertRefresh : ExecEnv

/-- What one call of `Auth.Refresh` reads. -/
structure RefreshEnv where
  find : ExecEnv
  access : TokenEnv
  insertAccess : ExecEnv

/-- What one call of `Auth.Logout` reads. -/
structure LogoutEnv where
  find : ExecEnv
  deleteAccess : Option GoError
  deleteRefresh : Option GoError

namespace Auth

/-- The method `Auth.Signup`. The welcome e-mail is sent from a goroutine whose
result is discarded; it takes no part in the result or the store. -/
def Signup (bc : Bcrypt) (s : Store) (env : SignupEnv) (username email password : String) :
    Store × Option GoError :=
  match bc.GenerateFromPassword password env.salt with
  | .error err => (s, some err)
  | .ok hashedPassword => s.CreateUser env.createUser username email hashedPassword

/-- The method `Auth.Login`: the store after the call and `(accessToken, refreshToken, err)`. -/
def Login (bc : Bcrypt) (s : Store) (env : LoginEnv) (username password : String) :
    Store × String × String × Option GoError :=
  match s.FindUserByUsername env.findUser username with
  | (_, some err) => (s, "", "", some err)
  | (none, none) => (s, "", "", some (.errorsNew "invalid credentials"))
  | (some user, none) =>
    match bc.CompareHashAndPassword user.PasswordHash password with
    | some _ => (s, "", "", some (.errorsNew "invalid credentials"))
    | none =>
      match CreateAccessToken env.access.rand env.access.envTTL env.access.now with
      | .error err => (s, "", "", some err)
      | .ok (accessToken, accessExpiresAt) =>
        match CreateRefreshToken env.refresh.rand env.refresh.envTTL env.refresh.now with
        | .error err => (s, "", "", some err)
        | .ok (refreshToken, refreshExpiresAt) =>
          match s.CreateAccessToken env.insertAccess.fault env.insertAccess.now
              user.ID accessToken accessExpiresAt with
          | (s1, some err) => (s1, "", "", some err)
          | (s1, none) =>
            match s1.CreateRefreshToken env.insertRefresh.fault env.insertRefresh.now
                user.ID refreshToken refreshExpiresAt with
            | (s2, some err) => (s2, "", "", some err)
            | (s2, none) => (s2, accessToken, refreshToken, none)

/-- The method `Auth.Refresh`: the store after the call and `(newAccessToken, err)`. -/
def Refresh (s : Store) (env : RefreshEnv) (refreshToken : String) :
    Store × String × Option GoError :=
  match s.FindUserIDByRefreshToken env.find.fault refreshToken env.find.now with
  | .error _ => (s, "", some (.errorsNew "invalid or expired refresh token"))
  | .ok userID =>
    match CreateAccessToken env.access.rand env.access.envTTL env.access.now with
    | .error err => (s, "", some err)
    | .ok (newAccessToken, accessExpiresAt) =>
      match s.CreateAccessToken env.insertAccess.fault env.insertAccess.now
          userID newAccessToken accessExpiresAt with
      | (s1, some err) => (s1, "", some err)
      | (s1, none) => (s1, newAccessToken, none)

/-- The method `Auth.Logout`. -/
def Logout (s : Store) (env : LogoutEnv) (accessToken : String) : Store × Option GoError :=
  match s.FindUserIDByAccessToken env.find.fault accessToken env.find.now with
  | .error _ => (s, some (.errorsNew "invalid token"))
  | .ok userID => s.DeleteAllTokensForUser env.deleteAccess env.deleteRefresh userID

/-- One call of the Session Manager, with the ambient inputs it reads. -/
inductive Op where
  | signup (env : SignupEnv) (username email password : String)
  | login (env : LoginEnv) (username password : String)
  | refresh (env : RefreshEnv) (refreshToken : String)
  | logout (env : LogoutEnv) (accessToken : String)

/-- The store after one call, whatever it returned. -/
def step (bc : Bcrypt) (s : Store) : Op → Store
  | .signup env username email password => (Signup bc s env username email password).1
  | .login env username password => (Login bc s env username password).1
  | .refresh env refreshToken => (Refresh s env refreshToken).1
  | .logout env accessToken => (Logout s env accessToken).1

/-- The store after a sequence of calls. -/
def run (bc : Bcrypt) (s : Store) (ops : List Op) : Store := ops.foldl (step bc) s

end Auth

/-! ## auth.go: the HTTP side -/

/-- Keys of a `context.Context`: values of the package's type `contextKey`, and
keys of every other type. -/
inductive CtxKey where
  | contextKey (s : String)
  | otherKey (s : String)
  deriving DecidableEq, Repr

/-- Values kept in a `context.Context`, by dynamic type. -/
inductive CtxVal where
  | int (n : Int)
  | string (s : String)
  deriving DecidableEq, Repr

/-- The constant `userIDKey`. -/
def userIDKey : CtxKey := .contextKey "userID"

/-- A `context.Context`, innermost binding first. -/
abbrev Context := List (CtxKey × CtxVal)

/-- The function `context.WithValue`. -/
def Context.WithValue (ctx : Context) (key : CtxKey) (val : CtxVal) : Context :=
  (key, val) :: ctx

/-- The method `Value` of a context. -/
def Context.Value (ctx : Context) (key : CtxKey) : Option CtxVal :=
  (ctx.find? (fun kv => kv.1 == key)).map (fun kv => kv.2)

/-- What the handlers read of an `*http.Request`: the method, `r.FormValue(key)`,
`r.Header.Get(key)` and the context. -/
structure Request where
  Method : String
  FormValue : String → String
  HeaderGet : String → String
  ctx : Context

/-- The method `WithContext` of a request. -/
def Request.WithContext (r : Request) (ctx : Context) : Request := { r with ctx := ctx }

/-- What a handler writes to its `http.ResponseWriter`. -/
inductive Response where
  /-- The call `writeJSON(w, status, data)` with a `map[string]string`. -/
  | json (status : Nat) (data : List (String × String))
  /-- The call `http.Error(w, msg, status)`. -/
  | text (status : Nat) (msg : String)
  deriving DecidableEq, Repr

/-- The function `writeError`. -/
def writeError (status : Nat) (message : String) : Response :=
  .json status [("error", message)]

/-- The function `extractBearerToken`. -/
def extractBearerToken (r : Request) : String :=
  let authHeader := r.HeaderGet "Authorization"
  if "Bearer ".toList.isPrefixOf authHeader.toList then
    String.mk (authHeader.toList.drop "Bearer ".length)
  else ""

/-- The function `UserIDFromContext`. -/
def UserIDFromContext (r : Request) : Int × Bool :=
  match r.ctx.Value userIDKey with
  | some (.int id) => (id, true)
  | _ => (0, false)

/-- What the handler returned by `Auth.Middleware` does with a request. -/
inductive MiddlewareResult where
  /-- It answers with `http.Error(w, msg, status)` and returns. -/
  | httpError (msg : String) (status : Nat)
  /-- It calls `next.ServeHTTP(w, r)` with this request. -/
  | serveNext (r : Request)

namespace Auth

/-- The handler registered for `/signup` in `Auth.Routes`. -/
def signupHandler (bc : Bcrypt) (s : Store) (env : SignupEnv) (r : Request) :
    Store × Response :=
  if r.Method ≠ "POST" then (s, writeError 405 "Only POST allowed")
  else
    let username := r.FormValue "username"
    let email := r.FormValue "email"
    let password := r.FormValue "password"
    if username = "" ∨ email = "" ∨ password = "" then (s, writeError 400 "Missing fields")
    else
      match Signup bc s env username email password with
      | (s1, some err) => (s1, writeError 400 ("Signup failed: " ++ err.Error))
      | (s1, none) => (s1, .json 201 [("message", "Signup successful")])

/-- The handler returned by `Auth.Middleware`; `fault` and `now` are what the
token lookup reads. -/
def Middleware (s : Store) (fault : Option GoError) (now : Int) (r : Request) :
    MiddlewareResult :=
  let token := extractBearerToken r
  if token = "" then .httpError "Unauthorized" 401
  else
    match s.FindUserIDByAccessToken fault token now with
    | .error _ => .httpError "Unauthorized" 401
    | .ok userID => .serveNext (r.WithContext (r.ctx.WithValue userIDKey (.int userID)))

end Auth

/-! ## Specification vocabulary -/

/-- The constraint `token TEXT UNIQUE` on a token table. -/
def TokensUnique (table : List TokenRow) : Prop :=
  table.Pairwise (fun a b => a.Token ≠ b.Token)

instance (table : List TokenRow) : Decidable (TokensUnique table) := by
  unfold TokensUnique
  exact inferInstance

/-- A store value that can be a database: both token tables satisfy their
`UNIQUE` constraint. -/
def Store.TokensUnique (s : Store) : Prop :=
  Badger.TokensUnique s.access_tokens ∧ Badger.TokensUnique s.refresh_tokens

instance (s : Store) : Decidable s.TokensUnique := by
  unfold Store.TokensUnique
  exact inferInstance

/-- A store with one user and one access token expiring at second 100. -/
def storeExpiringAt100 : Store :=
  { users := [⟨1, "alice", "alice@x.com", "hash"⟩],
    access_tokens := [⟨1, 1, "a1", 100, 40⟩],
    refresh_tokens := [⟨1, 1, "r1", 100, 40⟩],
    seq_users := 1, seq_access_tokens := 1, seq_refresh_tokens := 1,
    foreign_keys := false }

/-- A stand-in for bcrypt that keeps its contract (a hash matches exactly the
password it was generated from, passwords over 72 bytes are refused) without the
cryptography. -/
def demoBcrypt : Bcrypt where
  GenerateFromPassword password _ :=
    if password.utf8ByteSize > 72 then .error (.other "bcrypt: password length exceeds 72 bytes")
    else .ok ("$2a$10$" ++ password)
  CompareHashAndPassword hash password :=
    if hash = "$2a$10$" ++ password then none
    else some (.other "crypto/bcrypt: hashedPassword is not the hash of the given password")

/-- Ambient inputs of a login in which nothing fails: 32 entropy bytes per token,
no TTL configured, the clock at second 50. -/
def demoLoginEnv : LoginEnv where
  findUser := none
  access := ⟨.ok (fun i => i), "", ⟨50, 0⟩⟩
  refresh := ⟨.ok (fun i => i + 1), "", ⟨50, 0⟩⟩
  insertAccess := ⟨none, 50⟩
  insertRefresh := ⟨none, 50⟩

/-- Ambient inputs of a refresh in which nothing fails, the clock at second 60. -/
def demoRefreshEnv : RefreshEnv where
  find := ⟨none, 60⟩
  access := ⟨.ok (fun i => i + 2), "", ⟨60, 0⟩⟩
  insertAccess := ⟨none, 60⟩

/-- The store after `alice` signed up on a fresh database that enforces foreign keys. -/
def storeWithAlice : Store :=
  { users := [⟨1, "alice", "alice@x.com", "$2a$10$secret123"⟩],
    access_tokens := [], refresh_tokens := [],
    seq_users := 1, seq_access_tokens := 0, seq_refresh_tokens := 0,
    foreign_keys := true }

/-- The hexadecimal tokens of the entropy reads of `demoLoginEnv` and `demoRefreshEnv`. -/
def demoAccessToken : String :=
  "000102030405060708090a0b0c0d0e0f101112131415161718191a1b1c1d1e1f"

def demoRefreshToken : String :=
  "0102030405060708090a0b0c0d0e0f101112131415161718191a1b1c1d1e1f20"

def demoSecondAccessToken : String :=
  "02030405060708090a0b0c0d0e0f101112131415161718191a1b1c1d1e1f2021"

/-- A non-empty password of 73 bytes, one more than bcrypt takes. -/
def password73 : String := String.mk (List.replicate 73 'a')

/-- A request with the given method, form values and `Authorization` header. -/
def demoRequest (method : String) (form : List (String × String)) (authorization : String) :
    Request where
  Method := method
  FormValue key := ((form.find? (fun kv => kv.1 == key)).map (fun kv => kv.2)).getD ""
  HeaderGet key := if key = "Authorization" then authorization else ""
  ctx := []

/-- Every token row references a row of `users`. -/
def NoOrphans (s : Store) : Prop :=
  (∀ row ∈ s.access_tokens, ∃ u ∈ s.users, u.ID = row.UserID) ∧
    (∀ row ∈ s.refresh_tokens, ∃ u ∈ s.users, u.ID = row.UserID)

instance (s : Store) : Decidable (NoOrphans s) := by
  unfold NoOrphans
  exact inferInstance

/-! ## Lookup lemmas -/

theorem find?_token_of_mem {table : List TokenRow} (h : TokensUnique table)
    {row : TokenRow} (hrow : row ∈ table) :
    table.find? (fun r => r.Token == row.Token) = some row := by
  induction table with
  | nil => cases hrow
  | cons x xs ih =>
    rw [TokensUnique, List.pairwise_cons] at h
    rcases List.mem_cons.1 hrow with rfl | hmem
    · simp
    · have hne : x.Token ≠ row.Token := h.1 row hmem
      rw [List.find?_cons_of_neg _ (by simpa using hne)]
      exact ih h.2 hmem

theorem findUserIDByToken_ok_mem {table : List TokenRow} {msg : String}
    {fault : Option GoError} {t : String} {now u : Int}
    (hok : findUserIDByToken table msg fault t now = .ok u) :
    fault = none ∧ ∃ row ∈ table, row.Token = t ∧ row.UserID = u ∧ now ≤ row.ExpiresAt := by
  unfold findUserIDByToken at hok
  cases fault with
  | some e => simp at hok
  | none =>
    refine ⟨rfl, ?_⟩
    cases hf : table.find? (fun r => r.Token == t) with
    | none => simp [hf] at hok
    | some row =>
      simp only [hf] at hok
      have hmem := List.mem_of_find?_eq_some hf
      have htok : row.Token = t := by simpa using List.find?_some hf
      by_cases hexp : now > row.ExpiresAt
      · simp [hexp] at hok
      · simp only [hexp, if_false, Except.ok.injEq] at hok
        exact ⟨row, hmem, htok, hok, not_lt.1 hexp⟩

theorem findUserIDByToken_ok_iff {table : List TokenRow} (h : TokensUnique table)
    (msg t : String) (now u : Int) :
    findUserIDByToken table msg none t now = .ok u ↔
      ∃ row ∈ table, row.Token = t ∧ row.UserID = u ∧ now ≤ row.ExpiresAt := by
  constructor
  · intro hok
    exact (findUserIDByToken_ok_mem hok).2
  · rintro ⟨row, hmem, rfl, rfl, hle⟩
    simp [findUserIDByToken, find?_token_of_mem h hmem, not_lt.2 hle]

theorem findUserIDByToken_error_of_all_past {table : List TokenRow} (msg : String)
    (fault : Option GoError) {t : String} {now : Int}
    (h : ∀ row ∈ table, row.Token = t → row.ExpiresAt < now) :
    ∃ e, findUserIDByToken table msg fault t now = .error e := by
  cases hr : findUserIDByToken table msg fault t now with
  | error e => exact ⟨e, rfl⟩
  | ok u =>
    obtain ⟨_, row, hmem, htok, _, hle⟩ := findUserIDByToken_ok_mem hr
    exact absurd (h row hmem htok) (not_lt.2 hle)

/-! ## C1: validity of a token -/

/-- C1, as stated, fails: an access token whose `expires_at` equals the validation
instant is accepted by `FindUserIDByAccessToken`, although no row holding it has an
`expires_at` strictly greater than that instant. -/
theorem token_expiring_now_is_accepted :
    storeExpiringAt100.FindUserIDByAccessToken none "a1" 100 = .ok 1 ∧
      ¬ ∃ row ∈ storeExpiringAt100.access_tokens, row.Token = "a1" ∧ 100 < row.ExpiresAt := by
  constructor
  · rfl
  · simp [storeExpiringAt100]

/-- C1, amended: in a store whose token tables satisfy their `UNIQUE` constraint,
`FindUserIDByAccessToken t` at instant `now` returns user id `u` if and only if a row
of `access_tokens` holds `t`, belongs to `u` and has `expires_at ≥ now`; and
`FindUserIDByRefreshToken` likewise over `refresh_tokens`. -/
theorem findUserID_ok_iff_row_not_past_expiry (s : Store) (hs : s.TokensUnique)
    (t : String) (now u : Int) :
    (s.FindUserIDByAccessToken none t now = .ok u ↔
        ∃ row ∈ s.access_tokens, row.Token = t ∧ row.UserID = u ∧ now ≤ row.ExpiresAt) ∧
      (s.FindUserIDByRefreshToken none t now = .ok u ↔
        ∃ row ∈ s.refresh_tokens, row.Token = t ∧ row.UserID = u ∧ now ≤ row.ExpiresAt) :=
  ⟨findUserIDByToken_ok_iff hs.1 _ t now u, findUserIDByToken_ok_iff hs.2 _ t now u⟩

theorem findUserID_ok_iff_row_not_past_expiry_witness :
    storeExpiringAt100.TokensUnique ∧
      (storeExpiringAt100.FindUserIDByAccessToken none "a1" 100 = .ok 1 ↔
        ∃ row ∈ storeExpiringAt100.access_tokens,
          row.Token = "a1" ∧ row.UserID = 1 ∧ (100 : Int) ≤ row.ExpiresAt) ∧
      (storeExpiringAt100.FindUserIDByRefreshToken none "r1" 101 = .ok 1 ↔
        ∃ row ∈ storeExpiringAt100.refresh_tokens,
          row.Token = "r1" ∧ row.UserID = 1 ∧ (101 : Int) ≤ row.ExpiresAt) :=
  have hs : storeExpiringAt100.TokensUnique := by
    simp [Store.TokensUnique, TokensUnique, storeExpiringAt100]
  ⟨hs, (findUserID_ok_iff_row_not_past_expiry storeExpiringAt100 hs "a1" 100 1).1,
    (findUserID_ok_iff_row_not_past_expiry storeExpiringAt100 hs "r1" 101 1).2⟩

/-! ## C10: expiry instants -/

theorem wrapInt64_of_inInt64 {x : Int} (h : inInt64 x) : wrapInt64 x = x := by
  unfold inInt64 at h
  unfold wrapInt64
  omega

theorem Time.unix_add_seconds (t : Time) (k : Int) :
    (t.Add (k * 1000000000)).Unix = t.sec + k := by
  have h1 : Int.tdiv (k * 1000000000) 1000000000 = k :=
    Int.mul_tdiv_cancel k (by decide)
  have h2 : Int.tmod (k * 1000000000) 1000000000 = 0 := Int.mul_tmod_left k 1000000000
  have h3 : ((t.nsec.val : Nat) : Int) < 1000000000 := by exact_mod_cast t.nsec.isLt
  have h4 : (0 : Int) ≤ ((t.nsec.val : Nat) : Int) := Int.ofNat_nonneg _
  simp only [Time.Add, Time.Unix, h1, h2, add_zero]
  rw [if_neg (by omega), if_neg (by omega)]

set_option maxRecDepth 100000 in
/-- C10, as stated, fails: with `REFRESH_TOKEN_EXPIRY_DAYS=106752`, an integer,
`CreateRefreshToken` at second 1700000000 returns an `expiresAt` in the past
(the `time.Duration` product wraps), not `now + 86400 * 106752`. -/
theorem refresh_ttl_of_106752_days_wraps :
    Atoi "106752" = some 106752 ∧
      (∃ token, CreateRefreshToken (.ok (fun _ => 0)) "106752" ⟨1700000000, 0⟩ =
        .ok (token, -7523371274)) ∧
      (-7523371274 : Int) ≠ 1700000000 + 86400 * 106752 := by
  refine ⟨by decide, ⟨_, rfl⟩, by decide⟩

theorem configured_ttl_eq {env : String} {m : Int}
    (hm : Atoi env = some m ∨ (Atoi env = none ∧ m = 30)) :
    (if env ≠ "" then
        match Atoi env with
        | some parsed => parsed
        | none => 30
      else 30) = m := by
  rcases hm with h | ⟨h, rfl⟩
  · have hne : env ≠ "" := by
      rintro rfl
      have hnone : Atoi "" = none := by decide
      rw [hnone] at h
      cases h
    simp [hne, h]
  · simp [h]

/-- C10, amended: let `m` be the value `strconv.Atoi` gives for
`ACCESS_TOKEN_EXPIRY_MINUTES`, or 30 when it gives an error (unset, not a decimal
integer, outside `int64`), and `d` likewise for `REFRESH_TOKEN_EXPIRY_DAYS`. When
`m` minutes and `d` days, counted in nanoseconds, are `int64` values (no more than
about 292 years), `CreateAccessToken` returns `expiresAt = now + 60 * m` and
`CreateRefreshToken` returns `expiresAt = now + 86400 * d`. -/
theorem createToken_expiresAt_of_ttl_in_range (rand : Nat → Nat) (now : Time)
    (envMinutes envDays : String) (m d : Int)
    (hm : Atoi envMinutes = some m ∨ (Atoi envMinutes = none ∧ m = 30))
    (hd : Atoi envDays = some d ∨ (Atoi envDays = none ∧ d = 30))
    (hmr : inInt64 (m * Minute)) (hdr : inInt64 (d * 24 * Hour)) :
    (∃ token, CreateAccessToken (.ok rand) envMinutes now = .ok (token, now.Unix + 60 * m)) ∧
      (∃ token, CreateRefreshToken (.ok rand) envDays now =
        .ok (token, now.Unix + 86400 * d)) := by
  have h24 : inInt64 (d * 24) := by
    unfold inInt64 Hour Minute Second at *
    omega
  constructor
  · refine ⟨hexEncodeToString ((List.range 32).map (fun i => rand i % 256)), ?_⟩
    simp only [CreateAccessToken, generateRandomToken, configured_ttl_eq hm,
      wrapInt64_of_inInt64 hmr]
    have : m * Minute = (60 * m) * 1000000000 := by unfold Minute Second; ring
    rw [this, Time.unix_add_seconds]
    rfl
  · refine ⟨hexEncodeToString ((List.range 32).map (fun i => rand i % 256)), ?_⟩
    simp only [CreateRefreshToken, generateRandomToken, configured_ttl_eq hd,
      wrapInt64_of_inInt64 h24, wrapInt64_of_inInt64 hdr]
    have : d * 24 * Hour = (86400 * d) * 1000000000 := by unfold Hour Minute Second; ring
    rw [this, Time.unix_add_seconds]
    rfl

theorem createToken_expiresAt_of_ttl_in_range_witness :
    (∃ token, CreateAccessToken (.ok (fun i => i)) "" ⟨1700000000, 5⟩ =
        .ok (token, (⟨1700000000, 5⟩ : Time).Unix + 60 * 30)) ∧
      (∃ token, CreateRefreshToken (.ok (fun i => i)) "7" ⟨1700000000, 5⟩ =
        .ok (token, (⟨1700000000, 5⟩ : Time).Unix + 86400 * 7)) :=
  createToken_expiresAt_of_ttl_in_range (fun i => i) ⟨1700000000, 5⟩ "" "7" 30 7
    (Or.inr ⟨by decide, rfl⟩) (Or.inl (by decide)) (by decide) (by decide)

/-! ## C3: login failures -/

/-- C3: when the user lookup does not fail, `Auth.Login` with a username that no
row of `users` has and `Auth.Login` with a username some row has but a password
that matches the hash of no such row return the same result: empty access and
refresh tokens and the error `errors.New("invalid credentials")`, the store
unchanged. -/
theorem login_absent_user_and_wrong_password_same_error (bc : Bcrypt) (s : Store)
    (env₁ env₂ : LoginEnv) (username₁ password₁ username₂ password₂ : String)
    (hok₁ : (s.FindUserByUsername env₁.findUser username₁).2 = none)
    (hok₂ : (s.FindUserByUsername env₂.findUser username₂).2 = none)
    (habsent : ∀ u ∈ s.users, u.Username ≠ username₁)
    (_hexists : ∃ u ∈ s.users, u.Username = username₂)
    (hwrong : ∀ u ∈ s.users, u.Username = username₂ →
      bc.CompareHashAndPassword u.PasswordHash password₂ ≠ none) :
    Auth.Login bc s env₁ username₁ password₁ =
        (s, "", "", some (.errorsNew "invalid credentials")) ∧
      Auth.Login bc s env₂ username₂ password₂ =
        (s, "", "", some (.errorsNew "invalid credentials")) := by
  constructor
  · have hfind : s.users.find? (fun u => u.Username == username₁) = none := by
      rw [List.find?_eq_none]
      intro u hu
      simpa using habsent u hu
    unfold Auth.Login
    unfold Store.FindUserByUsername at hok₁ ⊢
    cases hf : env₁.findUser with
    | none => simp [hfind]
    | some e =>
      by_cases he : e = .sqlErrNoRows
      · simp [he]
      · simp [hf, he] at hok₁
  · unfold Auth.Login
    unfold Store.FindUserByUsername at hok₂ ⊢
    cases hf : env₂.findUser with
    | none =>
      cases hfind : s.users.find? (fun u => u.Username == username₂) with
      | none => simp
      | some user =>
        have hmem := List.mem_of_find?_eq_some hfind
        have hname : user.Username = username₂ := by simpa using List.find?_some hfind
        have hw := hwrong user hmem hname
        cases hc : bc.CompareHashAndPassword user.PasswordHash password₂ with
        | none => exact absurd hc hw
        | some e => simp [hc]
    | some e =>
      by_cases he : e = .sqlErrNoRows
      · simp [he]
      · simp [hf, he] at hok₂

theorem login_absent_user_and_wrong_password_same_error_witness :
    Auth.Login demoBcrypt storeExpiringAt100 demoLoginEnv "bob" "secret123" =
        (storeExpiringAt100, "", "", some (.errorsNew "invalid credentials")) ∧
      Auth.Login demoBcrypt storeExpiringAt100 demoLoginEnv "alice" "secret123" =
        (storeExpiringAt100, "", "", some (.errorsNew "invalid credentials")) :=
  login_absent_user_and_wrong_password_same_error demoBcrypt storeExpiringAt100
    demoLoginEnv demoLoginEnv "bob" "secret123" "alice" "secret123" rfl rfl
    (by simp [storeExpiringAt100]) ⟨⟨1, "alice", "alice@x.com", "hash"⟩, by simp [storeExpiringAt100]⟩
    (by simp [storeExpiringAt100, demoBcrypt])

/-! ## C7: empty signup fields -/

/-- C7, as stated, fails: on the empty store `Auth.Signup` with an empty username
returns no error and creates a user record whose username is empty; the method does
not look at its arguments. -/
theorem signup_with_empty_username_creates_user :
    (NewStore false).users = [] ∧
      (Auth.Signup demoBcrypt (NewStore false) ⟨0, none⟩ "" "alice@x.com" "secret123").2 =
        none ∧
      ∃ u ∈ (Auth.Signup demoBcrypt (NewStore false) ⟨0, none⟩ "" "alice@x.com"
          "secret123").1.users,
        u.ID = 1 ∧ u.Username = "" ∧ u.Email = "alice@x.com" :=
  ⟨rfl, rfl, ⟨1, "", "alice@x.com", "$2a$10$secret123"⟩, by decide, rfl, rfl, rfl⟩

/-- C7, amended: for every store state and every request to `/signup` in which
the form value `username`, `email` or `password` is the empty string, the handler
leaves the store unchanged, so no user record is created, and a `POST` request is
answered with status 400 and the error `Missing fields` (any other method with
status 405). -/
theorem signupHandler_rejects_empty_field (bc : Bcrypt) (s : Store) (env : SignupEnv)
    (r : Request)
    (hempty : r.FormValue "username" = "" ∨ r.FormValue "email" = "" ∨
      r.FormValue "password" = "") :
    (Auth.signupHandler bc s env r).1 = s ∧
      (r.Method = "POST" → (Auth.signupHandler bc s env r).2 = writeError 400 "Missing fields") ∧
      (r.Method ≠ "POST" →
        (Auth.signupHandler bc s env r).2 = writeError 405 "Only POST allowed") := by
  unfold Auth.signupHandler
  by_cases hm : r.Method = "POST"
  · simp [hm, hempty]
  · simp [hm]

theorem signupHandler_rejects_empty_field_witness :
    (Auth.signupHandler demoBcrypt storeExpiringAt100 ⟨0, none⟩
        (demoRequest "POST" [("username", "bob"), ("password", "secret123")] "")).1 =
        storeExpiringAt100 ∧
      (Auth.signupHandler demoBcrypt storeExpiringAt100 ⟨0, none⟩
        (demoRequest "POST" [("username", "bob"), ("password", "secret123")] "")).2 =
        writeError 400 "Missing fields" :=
  have h := signupHandler_rejects_empty_field demoBcrypt storeExpiringAt100 ⟨0, none⟩
    (demoRequest "POST" [("username", "bob"), ("password", "secret123")] "")
    (Or.inr (Or.inl (by decide)))
  ⟨h.1, h.2.1 rfl⟩

/-! ## C8: the request authenticator -/

theorem extractBearerToken_of_header {r : Request} {token : String}
    (h : r.HeaderGet "Authorization" = "Bearer " ++ token) : extractBearerToken r = token := by
  unfold extractBearerToken
  have hp : "Bearer ".toList.isPrefixOf ("Bearer " ++ token).toList = true := by
    rw [List.isPrefixOf_iff_prefix, String.toList, String.toList, String.data_append]
    exact List.prefix_append _ _
  have hl : "Bearer ".length = "Bearer ".toList.length := rfl
  simp only [h, hp, if_true]
  rw [hl, String.toList, String.toList, String.data_append, List.drop_left]

theorem header_of_extractBearerToken_ne {r : Request} (h : extractBearerToken r ≠ "") :
    r.HeaderGet "Authorization" = "Bearer " ++ extractBearerToken r := by
  unfold extractBearerToken at h ⊢
  by_cases hp : "Bearer ".toList.isPrefixOf (r.HeaderGet "Authorization").toList = true
  · simp only [hp, if_true]
    rw [List.isPrefixOf_iff_prefix, List.prefix_iff_eq_append] at hp
    apply String.ext
    rw [String.data_append]
    exact hp.symm
  · dsimp only at h
    rw [if_neg hp] at h
    exact absurd rfl h

/-- C8: `Auth.Middleware` calls the protected handler if and only if the
`Authorization` header is `Bearer ` followed by a non-empty token that
`FindUserIDByAccessToken` accepts, and `UserIDFromContext` on the request the
handler gets returns the id that lookup gave and `true`; in every other case the
answer is `http.Error` with `Unauthorized` and status 401, the handler not called. -/
theorem middleware_serves_iff_bearer_token_accepted (s : Store) (fault : Option GoError)
    (now : Int) (r : Request) :
    ((∃ r', Auth.Middleware s fault now r = .serveNext r') ↔
        ∃ token u, r.HeaderGet "Authorization" = "Bearer " ++ token ∧ token ≠ "" ∧
          s.FindUserIDByAccessToken fault token now = .ok u) ∧
      (∀ token u, r.HeaderGet "Authorization" = "Bearer " ++ token →
        s.FindUserIDByAccessToken fault token now = .ok u →
        ∀ r', Auth.Middleware s fault now r = .serveNext r' → UserIDFromContext r' = (u, true)) ∧
      ((¬ ∃ token u, r.HeaderGet "Authorization" = "Bearer " ++ token ∧ token ≠ "" ∧
          s.FindUserIDByAccessToken fault token now = .ok u) →
        Auth.Middleware s fault now r = .httpError "Unauthorized" 401) := by
  have key : ∀ token u, r.HeaderGet "Authorization" = "Bearer " ++ token → token ≠ "" →
      s.FindUserIDByAccessToken fault token now = .ok u →
      Auth.Middleware s fault now r =
        .serveNext (r.WithContext (r.ctx.WithValue userIDKey (.int u))) := by
    intro token u hh hne hok
    simp [Auth.Middleware, extractBearerToken_of_header hh, hne, hok]
  have other : (¬ ∃ token u, r.HeaderGet "Authorization" = "Bearer " ++ token ∧ token ≠ "" ∧
      s.FindUserIDByAccessToken fault token now = .ok u) →
      Auth.Middleware s fault now r = .httpError "Unauthorized" 401 := by
    intro hno
    unfold Auth.Middleware
    by_cases he : extractBearerToken r = ""
    · simp [he]
    · simp only [he, if_false]
      cases hf : s.FindUserIDByAccessToken fault (extractBearerToken r) now with
      | error e => rfl
      | ok u => exact absurd ⟨_, u, header_of_extractBearerToken_ne he, he, hf⟩ hno
  refine ⟨⟨?_, ?_⟩, ?_, other⟩
  · rintro ⟨r', hr'⟩
    by_contra hno
    rw [other hno] at hr'
    cases hr'
  · rintro ⟨token, u, hh, hne, hok⟩
    exact ⟨_, key token u hh hne hok⟩
  · intro token u hh hok r' hr'
    by_cases hne : token = ""
    · subst hne
      simp [Auth.Middleware, extractBearerToken_of_header hh] at hr'
    · rw [key token u hh hne hok] at hr'
      cases hr'
      simp [UserIDFromContext, Request.WithContext, Context.WithValue, Context.Value]

/-! ## Insertion lemmas -/

theorem insertToken_ok {fk : Bool} {users : List User} {table table' : List TokenRow}
    {seq seq' : Int} {name : String} {fault : Option GoError} {userID : Int} {token : String}
    {expiresAt createdAt : Int}
    (h : insertToken fk users table seq name fault userID token expiresAt createdAt =
      .ok (table', seq')) :
    table' = table ++ [⟨seq', userID, token, expiresAt, createdAt⟩] ∧
      (∀ row ∈ table, row.Token ≠ token) ∧
      (fk = true → ∃ u ∈ users, u.ID = userID) := by
  unfold insertToken at h
  cases fault with
  | some e => simp at h
  | none =>
    simp only at h
    cases hid : nextRowid seq (table.map (fun r => r.ID)) with
    | none => simp [hid] at h
    | some id =>
      simp only [hid] at h
      split at h
      · cases h
      · rename_i hany
        split at h
        · cases h
        · rename_i hfk
          simp only [Except.ok.injEq, Prod.mk.injEq] at h
          obtain ⟨h1, h2⟩ := h
          subst h2
          refine ⟨h1.symm, ?_, ?_⟩
          · intro row hrow heq
            apply hany
            rw [List.any_eq_true]
            exact ⟨row, hrow, by simpa using heq⟩
          · intro hfkt
            subst hfkt
            simpa using hfk

theorem createAccessToken_ok {s s' : Store} {fault : Option GoError} {now userID : Int}
    {token : String} {expiresAt : Int}
    (h : s.CreateAccessToken fault now userID token expiresAt = (s', none)) :
    (∃ id, s' = { s with access_tokens := s.access_tokens ++ [⟨id, userID, token, expiresAt, now⟩],
                         seq_access_tokens := id }) ∧
      (∀ row ∈ s.access_tokens, row.Token ≠ token) ∧
      (s.foreign_keys = true → ∃ u ∈ s.users, u.ID = userID) := by
  unfold Store.CreateAccessToken at h
  split at h
  · simp at h
  · rename_i table seq hins
    obtain ⟨h1, h2, h3⟩ := insertToken_ok hins
    simp only [Prod.mk.injEq, and_true] at h
    exact ⟨⟨seq, by rw [← h, h1]⟩, h2, h3⟩

theorem createAccessToken_error {s s' : Store} {fault : Option GoError} {now userID : Int}
    {token : String} {expiresAt : Int} {e : GoError}
    (h : s.CreateAccessToken fault now userID token expiresAt = (s', some e)) : s' = s := by
  unfold Store.CreateAccessToken at h
  split at h
  · simp only [Prod.mk.injEq] at h
    exact h.1.symm
  · simp at h

theorem createRefreshToken_ok {s s' : Store} {fault : Option GoError} {now userID : Int}
    {token : String} {expiresAt : Int}
    (h : s.CreateRefreshToken fault now userID token expiresAt = (s', none)) :
    (∃ id, s' = { s with refresh_tokens :=
                           s.refresh_tokens ++ [⟨id, userID, token, expiresAt, now⟩],
                         seq_refresh_tokens := id }) ∧
      (∀ row ∈ s.refresh_tokens, row.Token ≠ token) ∧
      (s.foreign_keys = true → ∃ u ∈ s.users, u.ID = userID) := by
  unfold Store.CreateRefreshToken at h
  split at h
  · simp at h
  · rename_i table seq hins
    obtain ⟨h1, h2, h3⟩ := insertToken_ok hins
    simp only [Prod.mk.injEq, and_true] at h
    exact ⟨⟨seq, by rw [← h, h1]⟩, h2, h3⟩

theorem createRefreshToken_error {s s' : Store} {fault : Option GoError} {now userID : Int}
    {token : String} {expiresAt : Int} {e : GoError}
    (h : s.CreateRefreshToken fault now userID token expiresAt = (s', some e)) : s' = s := by
  unfold Store.CreateRefreshToken at h
  split at h
  · simp only [Prod.mk.injEq] at h
    exact h.1.symm
  · simp at h

/-- What a call of `Auth.Refresh` did, by its error result. -/
theorem refresh_cases (s : Store) (env : RefreshEnv) (r : String) :
    ((∃ e, s.FindUserIDByRefreshToken env.find.fault r env.find.now = .error e) ∧
        Auth.Refresh s env r = (s, "", some (.errorsNew "invalid or expired refresh token"))) ∨
      (∃ e, Auth.Refresh s env r = (s, "", some e)) ∨
      (∃ userID token expiresAt s',
        s.FindUserIDByRefreshToken env.find.fault r env.find.now = .ok userID ∧
        CreateAccessToken env.access.rand env.access.envTTL env.access.now =
          .ok (token, expiresAt) ∧
        s.CreateAccessToken env.insertAccess.fault env.insertAccess.now userID token expiresAt =
          (s', none) ∧
        Auth.Refresh s env r = (s', token, none)) := by
  unfold Auth.Refresh
  cases hf : s.FindUserIDByRefreshToken env.find.fault r env.find.now with
  | error e => exact Or.inl ⟨⟨e, rfl⟩, rfl⟩
  | ok userID =>
    right
    cases hc : CreateAccessToken env.access.rand env.access.envTTL env.access.now with
    | error e => exact Or.inl ⟨e, rfl⟩
    | ok p =>
      obtain ⟨token, expiresAt⟩ := p
      cases hi : s.CreateAccessToken env.insertAccess.fault env.insertAccess.now userID token
        expiresAt with
      | mk s' err =>
        cases err with
        | some e =>
          have := createAccessToken_error hi
          subst this
          exact Or.inl ⟨e, by simp [hi]⟩
        | none => exact Or.inr ⟨userID, token, expiresAt, s', rfl, rfl, hi, by simp [hi]⟩

/-! ## C6: the frame of a refresh -/

/-- C6: `Auth.Refresh r` never changes `refresh_tokens`, whether it succeeds or
fails. When it succeeds, `access_tokens` is the old table with exactly one row
appended, `users` is unchanged, the new row belongs to the user the lookup of `r`
gave (the owner of an unexpired `refresh_tokens` row holding `r`), and the token
returned is that row's token. When `r` is absent or expired (every row holding `r`
has an `expires_at` before the current instant), it fails with
`errors.New("invalid or expired refresh token")` and the store is unchanged. -/
theorem refresh_keeps_refresh_tokens_adds_one_access_token (s : Store) (env : RefreshEnv)
    (r : String) :
    (Auth.Refresh s env r).1.refresh_tokens = s.refresh_tokens ∧
      ((Auth.Refresh s env r).2.2 = none →
        ∃ row, (Auth.Refresh s env r).1.access_tokens = s.access_tokens ++ [row] ∧
          (Auth.Refresh s env r).1.users = s.users ∧
          s.FindUserIDByRefreshToken env.find.fault r env.find.now = .ok row.UserID ∧
          (∃ old ∈ s.refresh_tokens, old.Token = r ∧ old.UserID = row.UserID ∧
            env.find.now ≤ old.ExpiresAt) ∧
          (Auth.Refresh s env r).2.1 = row.Token) ∧
      ((∀ row ∈ s.refresh_tokens, row.Token = r → row.ExpiresAt < env.find.now) →
        Auth.Refresh s env r =
          (s, "", some (.errorsNew "invalid or expired refresh token"))) := by
  rcases refresh_cases s env r with ⟨⟨e, hf⟩, hres⟩ | ⟨e, hres⟩ | ⟨u, token, exp, s', hf, _, hi, hres⟩
  · refine ⟨by rw [hres], fun h => ?_, fun _ => hres⟩
    rw [hres] at h
    cases h
  · refine ⟨by rw [hres], fun h => ?_, fun hpast => ?_⟩
    · rw [hres] at h
      cases h
    · obtain ⟨e', he'⟩ := findUserIDByToken_error_of_all_past "refresh token expired"
        env.find.fault hpast
      simp [Auth.Refresh, Store.FindUserIDByRefreshToken, he']
  · obtain ⟨⟨id, hs'⟩, -, -⟩ := createAccessToken_ok hi
    rw [hres]
    subst hs'
    refine ⟨rfl, fun _ => ⟨_, rfl, rfl, hf, (findUserIDByToken_ok_mem hf).2, rfl⟩, fun hpast => ?_⟩
    obtain ⟨e', he'⟩ := findUserIDByToken_error_of_all_past "refresh token expired"
      env.find.fault hpast
    rw [Store.FindUserIDByRefreshToken, he'] at hf
    cases hf

/-! ## C2: logout -/

theorem row_eq_of_token_eq {table : List TokenRow} (h : TokensUnique table)
    {row row' : TokenRow} (hrow : row ∈ table) (hrow' : row' ∈ table)
    (htok : row'.Token = row.Token) : row' = row := by
  have h1 := find?_token_of_mem h hrow
  have h2 := find?_token_of_mem h hrow'
  rw [htok, h1] at h2
  exact (Option.some.inj h2).symm

theorem findUserIDByToken_filter_error {table : List TokenRow} (h : TokensUnique table)
    {row : TokenRow} (hrow : row ∈ table) (msg : String) (fault : Option GoError) (now : Int) :
    ∃ e, findUserIDByToken (table.filter (fun r => !(r.UserID == row.UserID))) msg fault
      row.Token now = .error e := by
  cases hr : findUserIDByToken (table.filter (fun r => !(r.UserID == row.UserID))) msg fault
      row.Token now with
  | error e => exact ⟨e, rfl⟩
  | ok v =>
    obtain ⟨_, row', hmem, htok, _, _⟩ := findUserIDByToken_ok_mem hr
    rw [List.mem_filter] at hmem
    have heq := row_eq_of_token_eq h hrow hmem.1 htok
    have hne := hmem.2
    rw [heq] at hne
    simp at hne

/-- What a call of `Auth.Logout` that returned no error did. -/
theorem logout_ok {s : Store} {env : LogoutEnv} {a : String}
    (hout : (Auth.Logout s env a).2 = none) :
    ∃ u, s.FindUserIDByAccessToken env.find.fault a env.find.now = .ok u ∧
      (Auth.Logout s env a).1 =
        { s with access_tokens := s.access_tokens.filter (fun r => !(r.UserID == u)),
                 refresh_tokens := s.refresh_tokens.filter (fun r => !(r.UserID == u)) } := by
  unfold Auth.Logout at hout ⊢
  cases hf : s.FindUserIDByAccessToken env.find.fault a env.find.now with
  | error e => simp [hf] at hout
  | ok u =>
    refine ⟨u, rfl, ?_⟩
    simp only [hf] at hout ⊢
    unfold Store.DeleteAllTokensForUser deleteTokensOfUser at hout ⊢
    cases h1 : env.deleteAccess with
    | some e => simp [h1] at hout
    | none =>
      cases h2 : env.deleteRefresh with
      | some e => simp [h1, h2] at hout
      | none => rfl

/-- C2: in a store whose token tables satisfy their `UNIQUE` constraint, when the
access token `a` validates to user `u` and `Auth.Logout(a)` returns no error, then
in the resulting store `FindUserIDByAccessToken` fails on every access token and
`FindUserIDByRefreshToken` fails on every refresh token that belonged to `u` before
the call, at every instant; and a second `Auth.Logout(a)` returns the error
`errors.New("invalid token")`, the store unchanged. -/
theorem logout_revokes_every_token_of_user (s : Store) (hs : s.TokensUnique) (env : LogoutEnv)
    (a : String) (u : Int)
    (hval : s.FindUserIDByAccessToken env.find.fault a env.find.now = .ok u)
    (hout : (Auth.Logout s env a).2 = none) :
    (∀ row ∈ s.access_tokens, row.UserID = u → ∀ fault now,
        ∃ e, (Auth.Logout s env a).1.FindUserIDByAccessToken fault row.Token now = .error e) ∧
      (∀ row ∈ s.refresh_tokens, row.UserID = u → ∀ fault now,
        ∃ e, (Auth.Logout s env a).1.FindUserIDByRefreshToken fault row.Token now = .error e) ∧
      (∀ env', Auth.Logout (Auth.Logout s env a).1 env' a =
        ((Auth.Logout s env a).1, some (.errorsNew "invalid token"))) := by
  obtain ⟨u', hu', hs'⟩ := logout_ok hout
  rw [hval] at hu'
  cases hu'
  have hacc : ∀ row ∈ s.access_tokens, row.UserID = u → ∀ fault now,
      ∃ e, (Auth.Logout s env a).1.FindUserIDByAccessToken fault row.Token now = .error e := by
    intro row hrow hu fault now
    rw [hs']
    subst hu
    exact findUserIDByToken_filter_error hs.1 hrow _ fault now
  refine ⟨hacc, ?_, ?_⟩
  · intro row hrow hu fault now
    rw [hs']
    subst hu
    exact findUserIDByToken_filter_error hs.2 hrow _ fault now
  · intro env'
    obtain ⟨_, row, hrow, htok, hru, _⟩ := findUserIDByToken_ok_mem hval
    obtain ⟨e, he⟩ := hacc row hrow hru env'.find.fault env'.find.now
    rw [htok] at he
    generalize (Auth.Logout s env a).1 = s1 at he ⊢
    simp [Auth.Logout, he]

theorem logout_revokes_every_token_of_user_witness :
    (∀ row ∈ storeExpiringAt100.access_tokens, row.UserID = 1 → ∀ fault now,
        ∃ e, (Auth.Logout storeExpiringAt100 ⟨⟨none, 50⟩, none, none⟩ "a1").1.FindUserIDByAccessToken
          fault row.Token now = .error e) ∧
      (∀ row ∈ storeExpiringAt100.refresh_tokens, row.UserID = 1 → ∀ fault now,
        ∃ e, (Auth.Logout storeExpiringAt100 ⟨⟨none, 50⟩, none, none⟩ "a1").1.FindUserIDByRefreshToken
          fault row.Token now = .error e) ∧
      (∀ env', Auth.Logout (Auth.Logout storeExpiringAt100 ⟨⟨none, 50⟩, none, none⟩ "a1").1 env' "a1" =
        ((Auth.Logout storeExpiringAt100 ⟨⟨none, 50⟩, none, none⟩ "a1").1,
          some (.errorsNew "invalid token"))) :=
  logout_revokes_every_token_of_user storeExpiringAt100
    (by simp [Store.TokensUnique, TokensUnique, storeExpiringAt100])
    ⟨⟨none, 50⟩, none, none⟩ "a1" 1 rfl rfl

/-! ## Login lemmas -/

theorem findUserByUsername_some {s : Store} {fault : Option GoError} {username : String}
    {user : User} {err : Option GoError}
    (h : s.FindUserByUsername fault username = (some user, err)) :
    err = none ∧ user ∈ s.users ∧ user.Username = username ∧
      s.users.find? (fun u => u.Username == username) = some user := by
  unfold Store.FindUserByUsername at h
  cases fault with
  | some e =>
    by_cases he : e = .sqlErrNoRows
    · simp [he] at h
    · simp [he] at h
  | none =>
    cases hf : s.users.find? (fun u => u.Username == username) with
    | none => simp [hf] at h
    | some u =>
      simp only [hf, Prod.mk.injEq, Option.some.injEq] at h
      obtain ⟨h1, h2⟩ := h
      subst h1
      exact ⟨h2.symm, List.mem_of_find?_eq_some hf, by simpa using List.find?_some hf, rfl⟩

/-- What a call of `Auth.Login` that returned no error did. -/
theorem login_ok {bc : Bcrypt} {s s' : Store} {env : LoginEnv} {username password a r : String}
    (h : Auth.Login bc s env username password = (s', a, r, none)) :
    ∃ user aexp rexp s1,
      s.FindUserByUsername env.findUser username = (some user, none) ∧
      bc.CompareHashAndPassword user.PasswordHash password = none ∧
      CreateAccessToken env.access.rand env.access.envTTL env.access.now = .ok (a, aexp) ∧
      CreateRefreshToken env.refresh.rand env.refresh.envTTL env.refresh.now = .ok (r, rexp) ∧
      s.CreateAccessToken env.insertAccess.fault env.insertAccess.now user.ID a aexp =
        (s1, none) ∧
      s1.CreateRefreshToken env.insertRefresh.fault env.insertRefresh.now user.ID r rexp =
        (s', none) := by
  unfold Auth.Login at h
  cases hf : s.FindUserByUsername env.findUser username with
  | mk ou err =>
    cases err with
    | some e => simp [hf] at h
    | none =>
      cases ou with
      | none => simp [hf] at h
      | some user =>
        simp only [hf] at h
        cases hc : bc.CompareHashAndPassword user.PasswordHash password with
        | some e => simp [hc] at h
        | none =>
          simp only [hc] at h
          cases ha : CreateAccessToken env.access.rand env.access.envTTL env.access.now with
          | error e => simp [ha] at h
          | ok pa =>
            obtain ⟨ta, aexp⟩ := pa
            simp only [ha] at h
            cases hr : CreateRefreshToken env.refresh.rand env.refresh.envTTL
                env.refresh.now with
            | error e => simp [hr] at h
            | ok pr =>
              obtain ⟨tr, rexp⟩ := pr
              simp only [hr] at h
              cases hia : s.CreateAccessToken env.insertAccess.fault env.insertAccess.now
                  user.ID ta aexp with
              | mk s1 e1 =>
                cases e1 with
                | some e => simp [hia] at h
                | none =>
                  simp only [hia] at h
                  cases hir : s1.CreateRefreshToken env.insertRefresh.fault
                      env.insertRefresh.now user.ID tr rexp with
                  | mk s2 e2 =>
                    cases e2 with
                    | some e => simp [hir] at h
                    | none =>
                      simp only [hir, Prod.mk.injEq, and_true] at h
                      obtain ⟨h1, h2, h3⟩ := h
                      subst h1 h2 h3
                      exact ⟨user, aexp, rexp, s1, rfl, hc, rfl, rfl, hia, hir⟩

theorem findUserIDByToken_of_fresh_row {table rest : List TokenRow} {t : String}
    (hfresh : ∀ row ∈ table, row.Token ≠ t) (msg : String) (id u e c now : Int)
    (hle : now ≤ e) :
    findUserIDByToken (table ++ ⟨id, u, t, e, c⟩ :: rest) msg none t now = .ok u := by
  have hnone : table.find? (fun r => r.Token == t) = none := by
    rw [List.find?_eq_none]
    intro row hrow
    simpa using hfresh row hrow
  simp [findUserIDByToken, List.find?_append, hnone, not_lt.2 hle]

/-! ## C5: login, then refresh -/

/-- C5: when `Auth.Login` succeeds for the user record `user`, returning
`(a, r)`, and `Auth.Refresh(r)` on the resulting store succeeds, returning `a2`,
then `a2 ≠ a`, and in the store after the refresh `FindUserIDByAccessToken` returns
`user.ID` for `a` and for `a2` at every instant up to the expiry that
`CreateAccessToken` computed for each (so at every instant before it). -/
theorem login_then_refresh_both_access_tokens_validate (bc : Bcrypt) (s s1 s2 : Store)
    (lenv : LoginEnv) (renv : RefreshEnv) (username password a r a2 : String)
    (hlogin : Auth.Login bc s lenv username password = (s1, a, r, none))
    (hrefresh : Auth.Refresh s1 renv r = (s2, a2, none)) :
    a2 ≠ a ∧
      ∃ user aexp a2exp,
        s.FindUserByUsername lenv.findUser username = (some user, none) ∧
        CreateAccessToken lenv.access.rand lenv.access.envTTL lenv.access.now = .ok (a, aexp) ∧
        CreateAccessToken renv.access.rand renv.access.envTTL renv.access.now =
          .ok (a2, a2exp) ∧
        (∀ now, now ≤ aexp → s2.FindUserIDByAccessToken none a now = .ok user.ID) ∧
        (∀ now, now ≤ a2exp → s2.FindUserIDByAccessToken none a2 now = .ok user.ID) := by
  obtain ⟨user, aexp, rexp, s1', hfind, -, hca, -, hia, hir⟩ := login_ok hlogin
  obtain ⟨⟨ida, hs1'⟩, hfa, -⟩ := createAccessToken_ok hia
  obtain ⟨⟨idr, hs1⟩, hfr, -⟩ := createRefreshToken_ok hir
  subst hs1'
  subst hs1
  simp only at hfr
  rcases refresh_cases _ renv r with ⟨-, hres⟩ | ⟨e, hres⟩ | ⟨u, token, a2exp, s', hf, hc, hi, hres⟩
  · rw [hres] at hrefresh
    simp at hrefresh
  · rw [hres] at hrefresh
    simp at hrefresh
  · rw [hres] at hrefresh
    simp only [Prod.mk.injEq, and_true] at hrefresh
    obtain ⟨h1, h2⟩ := hrefresh
    subst h1 h2
    obtain ⟨-, row, hrow, htok, hru, -⟩ := findUserIDByToken_ok_mem hf
    have hu : u = user.ID := by
      simp only [List.mem_append, List.mem_singleton] at hrow
      rcases hrow with hold | hnew
      · exact absurd htok (hfr row hold)
      · rw [← hru, hnew]
    subst hu
    obtain ⟨⟨id2, hs2⟩, hf2, -⟩ := createAccessToken_ok hi
    subst hs2
    simp only at hf2
    have hne : token ≠ a := by
      intro heq
      exact hf2 ⟨ida, user.ID, a, aexp, lenv.insertAccess.now⟩ (by simp) heq.symm
    refine ⟨hne, user, aexp, a2exp, hfind, hca, hc, ?_, ?_⟩
    · intro now hle
      simp only [Store.FindUserIDByAccessToken, List.append_assoc, List.singleton_append]
      exact findUserIDByToken_of_fresh_row hfa _ _ _ _ _ _ hle
    · intro now hle
      simp only [Store.FindUserIDByAccessToken]
      exact findUserIDByToken_of_fresh_row (fun row hrow h => hf2 row hrow h) _ _ _ _ _ _ hle

set_option maxRecDepth 100000 in
theorem login_then_refresh_both_access_tokens_validate_witness :
    demoSecondAccessToken ≠ demoAccessToken ∧
      ∃ user aexp a2exp,
        storeWithAlice.FindUserByUsername demoLoginEnv.findUser "alice" = (some user, none) ∧
        CreateAccessToken demoLoginEnv.access.rand demoLoginEnv.access.envTTL
          demoLoginEnv.access.now = .ok (demoAccessToken, aexp) ∧
        CreateAccessToken demoRefreshEnv.access.rand demoRefreshEnv.access.envTTL
          demoRefreshEnv.access.now = .ok (demoSecondAccessToken, a2exp) ∧
        (∀ now, now ≤ aexp →
          (Auth.Refresh (Auth.Login demoBcrypt storeWithAlice demoLoginEnv "alice" "secret123").1
            demoRefreshEnv demoRefreshToken).1.FindUserIDByAccessToken none demoAccessToken now =
            .ok user.ID) ∧
        (∀ now, now ≤ a2exp →
          (Auth.Refresh (Auth.Login demoBcrypt storeWithAlice demoLoginEnv "alice" "secret123").1
            demoRefreshEnv demoRefreshToken).1.FindUserIDByAccessToken none
              demoSecondAccessToken now = .ok user.ID) :=
  login_then_refresh_both_access_tokens_validate demoBcrypt storeWithAlice
    (Auth.Login demoBcrypt storeWithAlice demoLoginEnv "alice" "secret123").1
    (Auth.Refresh (Auth.Login demoBcrypt storeWithAlice demoLoginEnv "alice" "secret123").1
      demoRefreshEnv demoRefreshToken).1
    demoLoginEnv demoRefreshEnv "alice" "secret123" demoAccessToken demoRefreshToken
    demoSecondAccessToken (by rfl) (by rfl)

/-! ## C4: signup, then login -/

theorem hexEncodeToString_length (b : List Nat) :
    (hexEncodeToString b).length = 2 * b.length := by
  unfold hexEncodeToString
  show (b.flatMap (fun x => [hexDigit (x / 16), hexDigit (x % 16)])).length = 2 * b.length
  induction b with
  | nil => rfl
  | cons x xs ih =>
    simp only [List.flatMap_cons, List.length_append, List.length_cons, List.length_nil, ih]
    omega

theorem generateRandomToken_ne_empty {rand : Except GoError (Nat → Nat)} {token : String}
    (h : generateRandomToken 32 rand = .ok token) : token ≠ "" := by
  unfold generateRandomToken at h
  cases rand with
  | error e => simp at h
  | ok f =>
    simp only [Except.ok.injEq] at h
    intro hempty
    have hlen := hexEncodeToString_length ((List.range 32).map (fun i => f i % 256))
    rw [h, hempty] at hlen
    simp at hlen

theorem createAccessToken_token {rand : Except GoError (Nat → Nat)} (envTTL : String)
    (now : Time) {token : String} (h : generateRandomToken 32 rand = .ok token) :
    ∃ expiresAt, CreateAccessToken rand envTTL now = .ok (token, expiresAt) := by
  simp [CreateAccessToken, h]

theorem createRefreshToken_token {rand : Except GoError (Nat → Nat)} (envTTL : String)
    (now : Time) {token : String} (h : generateRandomToken 32 rand = .ok token) :
    ∃ expiresAt, CreateRefreshToken rand envTTL now = .ok (token, expiresAt) := by
  simp [CreateRefreshToken, h]

theorem signup_new_user {bc : Bcrypt} {s : Store} {env : SignupEnv}
    {username email password hash : String} {id : Int}
    (hnewU : ∀ u ∈ s.users, u.Username ≠ username) (hnewE : ∀ u ∈ s.users, u.Email ≠ email)
    (hgen : bc.GenerateFromPassword password env.salt = .ok hash)
    (hs : env.createUser = none)
    (hid : nextRowid s.seq_users (s.users.map (fun u => u.ID)) = some id) :
    Auth.Signup bc s env username email password =
      ({ s with users := s.users ++ [⟨id, username, email, hash⟩], seq_users := id },
        none) := by
  have h1 : s.users.any (fun u => u.Username == username) = false := by
    rw [List.any_eq_false]
    intro u hu
    simpa using hnewU u hu
  have h2 : s.users.any (fun u => u.Email == email) = false := by
    rw [List.any_eq_false]
    intro u hu
    simpa using hnewE u hu
  simp [Auth.Signup, Store.CreateUser, hgen, hs, h1, h2, hid]

theorem insertToken_fresh {fk : Bool} {users : List User} {table : List TokenRow} {seq : Int}
    {name : String} {userID : Int} {token : String} {expiresAt createdAt id : Int}
    (hfresh : ∀ row ∈ table, row.Token ≠ token) (huser : ∃ u ∈ users, u.ID = userID)
    (hid : nextRowid seq (table.map (fun r => r.ID)) = some id) :
    insertToken fk users table seq name none userID token expiresAt createdAt =
      .ok (table ++ [⟨id, userID, token, expiresAt, createdAt⟩], id) := by
  have h1 : table.any (fun r => r.Token == token) = false := by
    rw [List.any_eq_false]
    intro row hrow
    simpa using hfresh row hrow
  have h2 : users.any (fun u => u.ID == userID) = true := by
    rw [List.any_eq_true]
    obtain ⟨u, hu, hid⟩ := huser
    exact ⟨u, hu, by simpa using hid⟩
  simp [insertToken, h1, h2, hid]

/-- A password of 73 bytes. -/
theorem password73_utf8ByteSize : password73.utf8ByteSize = 73 := by decide

/-- C4, as stated, fails: on the empty store, with no failure of the store or of
the entropy source, `Auth.Signup` with an unused username and e-mail and a
non-empty password of 73 bytes returns the error of
`bcrypt.GenerateFromPassword` (passwords over 72 bytes are refused), and no user
record is created. -/
theorem signup_with_73_byte_password_fails :
    password73 ≠ "" ∧ (NewStore true).users = [] ∧
      (Auth.Signup demoBcrypt (NewStore true) ⟨0, none⟩ "alice" "alice@x.com" password73).2 =
        some (.other "bcrypt: password length exceeds 72 bytes") ∧
      (Auth.Signup demoBcrypt (NewStore true) ⟨0, none⟩ "alice" "alice@x.com"
        password73).1.users = [] := by
  refine ⟨by decide, rfl, ?_, ?_⟩ <;>
    simp [Auth.Signup, demoBcrypt, password73_utf8ByteSize, NewStore]

/-- C4, amended: for every store state and every `(username, email, password)`
whose username and email no row of `users` has, when bcrypt hashes the password
(it refuses passwords over 72 bytes) and accepts it for the hash it produced, and
the store and the entropy source do not fail (no statement fails in the driver, no
table has run out of row keys, the entropy source delivers both tokens and neither
collides with a stored one under the `UNIQUE` constraint), `Auth.Signup` returns no
error and `Auth.Login` with the same username and password on the resulting store
returns no error, a non-empty access token and a non-empty refresh token. -/
theorem signup_then_login_succeeds (bc : Bcrypt) (s : Store) (senv : SignupEnv)
    (lenv : LoginEnv) (username email password hash ta tr : String)
    (hnewU : ∀ u ∈ s.users, u.Username ≠ username)
    (hnewE : ∀ u ∈ s.users, u.Email ≠ email)
    (hgen : bc.GenerateFromPassword password senv.salt = .ok hash)
    (hcmp : bc.CompareHashAndPassword hash password = none)
    (hs : senv.createUser = none) (hl : lenv.findUser = none)
    (hla : lenv.insertAccess.fault = none) (hlr : lenv.insertRefresh.fault = none)
    (hku : nextRowid s.seq_users (s.users.map (fun u => u.ID)) ≠ none)
    (hka : nextRowid s.seq_access_tokens (s.access_tokens.map (fun r => r.ID)) ≠ none)
    (hkr : nextRowid s.seq_refresh_tokens (s.refresh_tokens.map (fun r => r.ID)) ≠ none)
    (hta : generateRandomToken 32 lenv.access.rand = .ok ta)
    (htr : generateRandomToken 32 lenv.refresh.rand = .ok tr)
    (hfa : ∀ row ∈ s.access_tokens, row.Token ≠ ta)
    (hfr : ∀ row ∈ s.refresh_tokens, row.Token ≠ tr) :
    (Auth.Signup bc s senv username email password).2 = none ∧
      (Auth.Login bc (Auth.Signup bc s senv username email password).1 lenv
        username password).2 = (ta, tr, none) ∧
      ta ≠ "" ∧ tr ≠ "" := by
  obtain ⟨idu, hidu⟩ := Option.ne_none_iff_exists'.1 hku
  obtain ⟨ida, hida⟩ := Option.ne_none_iff_exists'.1 hka
  obtain ⟨idr, hidr⟩ := Option.ne_none_iff_exists'.1 hkr
  refine ⟨by rw [signup_new_user hnewU hnewE hgen hs hidu], ?_,
    generateRandomToken_ne_empty hta, generateRandomToken_ne_empty htr⟩
  rw [signup_new_user hnewU hnewE hgen hs hidu]
  obtain ⟨aexp, hca⟩ := createAccessToken_token lenv.access.envTTL lenv.access.now hta
  obtain ⟨rexp, hcr⟩ := createRefreshToken_token lenv.refresh.envTTL lenv.refresh.now htr
  have hnone : s.users.find? (fun u => u.Username == username) = none := by
    rw [List.find?_eq_none]
    intro u hu
    simpa using hnewU u hu
  simp only [Auth.Login, Store.FindUserByUsername, hl, List.find?_append, hnone,
    Option.none_or, List.find?_cons, beq_self_eq_true, hcmp, hca, hcr,
    Store.CreateAccessToken, Store.CreateRefreshToken, hla, hlr]
  rw [insertToken_fresh hfa ⟨_, List.mem_append_right _ (List.mem_singleton_self _), rfl⟩ hida]
  simp only []
  rw [insertToken_fresh hfr ⟨_, List.mem_append_right _ (List.mem_singleton_self _), rfl⟩ hidr]

set_option maxRecDepth 100000 in
theorem signup_then_login_succeeds_witness :
    (Auth.Signup demoBcrypt (NewStore true) ⟨0, none⟩ "alice" "alice@x.com" "secret123").2 =
        none ∧
      (Auth.Login demoBcrypt
        (Auth.Signup demoBcrypt (NewStore true) ⟨0, none⟩ "alice" "alice@x.com" "secret123").1
        demoLoginEnv "alice" "secret123").2 = (demoAccessToken, demoRefreshToken, none) ∧
      demoAccessToken ≠ "" ∧ demoRefreshToken ≠ "" :=
  signup_then_login_succeeds demoBcrypt (NewStore true) ⟨0, none⟩ demoLoginEnv
    "alice" "alice@x.com" "secret123" "$2a$10$secret123" demoAccessToken demoRefreshToken
    (by simp [NewStore]) (by simp [NewStore]) (by rfl) (by rfl) rfl rfl rfl rfl
    (by decide) (by decide) (by decide) (by rfl) (by rfl)
    (by simp [NewStore]) (by simp [NewStore])

/-! ## C9: no orphaned token -/

theorem createAccessToken_noOrphans {s : Store} (h : NoOrphans s) (fault : Option GoError)
    (now : Int) {userID : Int} (hu : ∃ u ∈ s.users, u.ID = userID) (token : String)
    (expiresAt : Int) :
    NoOrphans (s.CreateAccessToken fault now userID token expiresAt).1 ∧
      (s.CreateAccessToken fault now userID token expiresAt).1.users = s.users := by
  cases hc : s.CreateAccessToken fault now userID token expiresAt with
  | mk s' err =>
    cases err with
    | some e =>
      have := createAccessToken_error hc
      subst this
      exact ⟨h, rfl⟩
    | none =>
      obtain ⟨⟨id, hs'⟩, -, -⟩ := createAccessToken_ok hc
      subst hs'
      refine ⟨⟨?_, h.2⟩, rfl⟩
      intro row hrow
      simp only [List.mem_append, List.mem_singleton] at hrow
      rcases hrow with hold | hnew
      · exact h.1 row hold
      · subst hnew
        exact hu

theorem createRefreshToken_noOrphans {s : Store} (h : NoOrphans s) (fault : Option GoError)
    (now : Int) {userID : Int} (hu : ∃ u ∈ s.users, u.ID = userID) (token : String)
    (expiresAt : Int) :
    NoOrphans (s.CreateRefreshToken fault now userID token expiresAt).1 := by
  cases hc : s.CreateRefreshToken fault now userID token expiresAt with
  | mk s' err =>
    cases err with
    | some e =>
      have := createRefreshToken_error hc
      subst this
      exact h
    | none =>
      obtain ⟨⟨id, hs'⟩, -, -⟩ := createRefreshToken_ok hc
      subst hs'
      refine ⟨h.1, ?_⟩
      intro row hrow
      simp only [List.mem_append, List.mem_singleton] at hrow
      rcases hrow with hold | hnew
      · exact h.2 row hold
      · subst hnew
        exact hu

theorem signup_noOrphans {s : Store} (h : NoOrphans s) (bc : Bcrypt) (env : SignupEnv)
    (username email password : String) :
    NoOrphans (Auth.Signup bc s env username email password).1 := by
  unfold Auth.Signup
  cases bc.GenerateFromPassword password env.salt with
  | error e => exact h
  | ok hash =>
    simp only
    unfold Store.CreateUser
    cases env.createUser with
    | some e => exact h
    | none =>
      simp only
      cases nextRowid s.seq_users (s.users.map (fun u => u.ID)) with
      | none => exact h
      | some id =>
        simp only
        split
        · exact h
        · split
          · exact h
          · constructor
            · intro row hrow
              obtain ⟨u, hu, hid⟩ := h.1 row hrow
              exact ⟨u, List.mem_append_left _ hu, hid⟩
            · intro row hrow
              obtain ⟨u, hu, hid⟩ := h.2 row hrow
              exact ⟨u, List.mem_append_left _ hu, hid⟩

theorem login_noOrphans {s : Store} (h : NoOrphans s) (bc : Bcrypt) (env : LoginEnv)
    (username password : String) :
    NoOrphans (Auth.Login bc s env username password).1 := by
  unfold Auth.Login
  cases hf : s.FindUserByUsername env.findUser username with
  | mk ou err =>
    cases err with
    | some e => cases ou <;> exact h
    | none =>
      cases ou with
      | none => exact h
      | some user =>
        obtain ⟨-, hmem, -, -⟩ := findUserByUsername_some hf
        have hu : ∃ u ∈ s.users, u.ID = user.ID := ⟨user, hmem, rfl⟩
        simp only
        cases bc.CompareHashAndPassword user.PasswordHash password with
        | some e => exact h
        | none =>
          simp only
          cases CreateAccessToken env.access.rand env.access.envTTL env.access.now with
          | error e => exact h
          | ok pa =>
            obtain ⟨ta, aexp⟩ := pa
            simp only
            cases CreateRefreshToken env.refresh.rand env.refresh.envTTL env.refresh.now with
            | error e => exact h
            | ok pr =>
              obtain ⟨tr, rexp⟩ := pr
              simp only
              obtain ⟨h1, husers⟩ := createAccessToken_noOrphans h env.insertAccess.fault
                env.insertAccess.now hu ta aexp
              cases hia : s.CreateAccessToken env.insertAccess.fault env.insertAccess.now
                  user.ID ta aexp with
              | mk s1 e1 =>
                rw [hia] at h1 husers
                simp only at h1 husers
                cases e1 with
                | some e => exact h1
                | none =>
                  simp only
                  have hu1 : ∃ u ∈ s1.users, u.ID = user.ID := by rw [husers]; exact hu
                  have h2 := createRefreshToken_noOrphans h1 env.insertRefresh.fault
                    env.insertRefresh.now hu1 tr rexp
                  cases hir : s1.CreateRefreshToken env.insertRefresh.fault
                      env.insertRefresh.now user.ID tr rexp with
                  | mk s2 e2 =>
                    rw [hir] at h2
                    cases e2 with
                    | some e => exact h2
                    | none => exact h2

theorem refresh_noOrphans {s : Store} (h : NoOrphans s) (env : RefreshEnv) (r : String) :
    NoOrphans (Auth.Refresh s env r).1 := by
  rcases refresh_cases s env r with ⟨-, hres⟩ | ⟨e, hres⟩ | ⟨u, token, exp, s', hf, -, hi, hres⟩
  · rw [hres]
    exact h
  · rw [hres]
    exact h
  · rw [hres]
    obtain ⟨-, row, hrow, -, hru, -⟩ := findUserIDByToken_ok_mem hf
    obtain ⟨usr, husr, hid⟩ := h.2 row hrow
    have := (createAccessToken_noOrphans h env.insertAccess.fault env.insertAccess.now
      ⟨usr, husr, hid.trans hru⟩ token exp).1
    rw [hi] at this
    exact this

theorem deleteTokensOfUser_subset (table : List TokenRow) (fault : Option GoError)
    (userID : Int) : ∀ row ∈ (deleteTokensOfUser table fault userID).1, row ∈ table := by
  intro row hrow
  unfold deleteTokensOfUser at hrow
  cases fault with
  | some e => exact hrow
  | none => exact (List.mem_filter.1 hrow).1

theorem logout_noOrphans {s : Store} (h : NoOrphans s) (env : LogoutEnv) (a : String) :
    NoOrphans (Auth.Logout s env a).1 := by
  unfold Auth.Logout
  cases s.FindUserIDByAccessToken env.find.fault a env.find.now with
  | error e => exact h
  | ok u =>
    simp only
    have hstore : (s.DeleteAllTokensForUser env.deleteAccess env.deleteRefresh u).1 =
        { s with access_tokens := (deleteTokensOfUser s.access_tokens env.deleteAccess u).1,
                 refresh_tokens := (deleteTokensOfUser s.refresh_tokens env.deleteRefresh u).1 } := by
      unfold Store.DeleteAllTokensForUser
      cases deleteTokensOfUser s.access_tokens env.deleteAccess u with
      | mk t1 e1 =>
        cases deleteTokensOfUser s.refresh_tokens env.deleteRefresh u with
        | mk t2 e2 => cases e1 <;> rfl
    rw [hstore]
    exact ⟨fun row hrow => h.1 row (deleteTokensOfUser_subset _ _ _ row hrow),
      fun row hrow => h.2 row (deleteTokensOfUser_subset _ _ _ row hrow)⟩

theorem run_noOrphans (bc : Bcrypt) (ops : List Auth.Op) :
    ∀ s, NoOrphans s → NoOrphans (Auth.run bc s ops) := by
  induction ops with
  | nil => intro s h; exact h
  | cons op ops ih =>
    intro s h
    apply ih
    cases op with
    | signup env username email password => exact signup_noOrphans h bc env username email password
    | login env username password => exact login_noOrphans h bc env username password
    | refresh env r => exact refresh_noOrphans h env r
    | logout env a => exact logout_noOrphans h env a

/-- C9: starting from the empty store of `NewStore`, after every finite sequence
of `Auth.Signup`, `Auth.Login`, `Auth.Refresh` and `Auth.Logout` calls, whatever
each returned and whatever failed inside it, every row of `access_tokens` and every
row of `refresh_tokens` has a `user_id` equal to the `id` of a row of `users`. -/
theorem no_orphaned_token_after_any_calls (bc : Bcrypt) (foreign_keys : Bool)
    (ops : List Auth.Op) :
    (∀ row ∈ (Auth.run bc (NewStore foreign_keys) ops).access_tokens,
        ∃ u ∈ (Auth.run bc (NewStore foreign_keys) ops).users, u.ID = row.UserID) ∧
      (∀ row ∈ (Auth.run bc (NewStore foreign_keys) ops).refresh_tokens,
        ∃ u ∈ (Auth.run bc (NewStore foreign_keys) ops).users, u.ID = row.UserID) :=
  run_noOrphans bc ops (NewStore foreign_keys)
    ⟨fun _ hrow => by simp [NewStore] at hrow, fun _ hrow => by simp [NewStore] at hrow⟩

end Badger
